import Mathlib

/-!
Shallow embedding of `src/robot_controller.py` (mission controller and
simulator client) and verification of its specified properties.

Python floats are modelled as rationals; Python's `x % m` (sign of the
divisor) is `pymod`; `random.uniform(a, b)` is `a + u * (b - a)` for a
draw `u` of `random.random()` in `[0, 1)`; network effects are modelled
by an input oracle: each poll cycle consumes one wall-clock sample, two
collision-count read results and one random draw.
-/

namespace RobotController

/-- Tuning constant `FORWARD_SPEED = 25.0`. -/
def FORWARD_SPEED : ℚ := 25

/-- Tuning constant `TURN_SPEED = 25.0`. -/
def TURN_SPEED : ℚ := 25

/-- Tuning constant `AVOIDANCE_BACKUP = -25.0`. -/
def AVOIDANCE_BACKUP : ℚ := -25

/-- `run_duration_seconds = 90` from `run_autonomous_mission`. -/
def run_duration_seconds : ℚ := 90

/-- Python's `x % m`: `x - m * floor (x / m)`, the remainder with the sign
of the divisor. -/
def pymod (x m : ℚ) : ℚ := x - m * ⌊x / m⌋

/-- CPython's `random.uniform(a, b) = a + (b - a) * random()` where
`random()` draws from `[0, 1)`; `u` is the draw. -/
def uniform (a b u : ℚ) : ℚ := a + u * (b - a)

/-- `np.clip(x, lo, hi)` on scalars. -/
def clip (x lo hi : ℚ) : ℚ := min (max x lo) hi

/-- The `target_headings` dictionary of `run_autonomous_mission`. -/
def target_headings : List (String × ℚ) :=
  [("NE", 45), ("NW", 315), ("SE", 135), ("SW", 225)]

/-- `heading_error = (target_heading - current_heading + 180) % 360 - 180`
(line 100). -/
def heading_error (target current : ℚ) : ℚ :=
  pymod (target - current + 180) 360 - 180

/-- `turn_correction = np.clip(heading_error, -TURN_SPEED, TURN_SPEED)`
(line 101). -/
def seek_turn (target current : ℚ) : ℚ :=
  clip (heading_error target current) (-TURN_SPEED) TURN_SPEED

/-- The seek-branch heading update
`current_heading = (current_heading + turn_correction) % 360` (line 105). -/
def seek_step (target : ℚ) (current : ℚ) : ℚ :=
  pymod (current + seek_turn target current) 360

/-- A relative move command: the payload of `move_robot_relative`. -/
structure MoveCmd where
  turn : ℚ
  distance : ℚ
deriving DecidableEq, Repr

/-- Mutable loop state of `run_autonomous_mission`: `current_heading` and
`last_collision_count`. -/
structure State where
  heading : ℚ
  lastCount : ℤ
deriving DecidableEq, Repr

/-- Oracle data consumed by one iteration of the `while` loop: the
`time.time()` sample at the guard, the `get_collision_count()` result of
line 77, the `random.random()` draw behind `random.uniform(120, 180)`
(used only in the escape branch), and the refresh read of line 107. -/
structure CycleInput where
  time : ℚ
  read1 : ℤ
  u : ℚ
  read2 : ℤ
deriving DecidableEq, Repr

/-- The three commands of the randomized escape maneuver (lines 84-95). -/
def escape_cmds (u : ℚ) : List MoveCmd :=
  [⟨0, AVOIDANCE_BACKUP⟩, ⟨uniform 120 180 u, 0⟩, ⟨0, FORWARD_SPEED⟩]

/-- One iteration of the loop body (lines 77-107): the delta check
`current_collision_count > last_collision_count` selects the escape or
seek branch; both branches end by storing the refresh read into
`last_collision_count`. Returns the new state and the issued commands. -/
def cycle (target : ℚ) (s : State) (i : CycleInput) : State × List MoveCmd :=
  if s.lastCount < i.read1 then
    let r := uniform 120 180 i.u
    (⟨pymod (s.heading + r) 360, i.read2⟩, escape_cmds i.u)
  else
    (⟨seek_step target s.heading, i.read2⟩, [⟨seek_turn target s.heading, FORWARD_SPEED⟩])

/-- Observable calls made against the simulator. -/
inductive Event where
  | reset
  | setGoal (corner : String)
  | move (cmd : MoveCmd)
  | readCollisions
deriving DecidableEq, Repr

/-- The `while time.time() - start_time < run_duration_seconds` loop
(lines 76-108), consuming one `CycleInput` per iteration. `none` means
the oracle ran out of inputs while the guard was still true; `some`
holds the final state and the event trace of all iterations. -/
def run_loop (target start : ℚ) : State → List CycleInput → Option (State × List Event)
  | _, [] => none
  | s, i :: rest =>
    if i.time - start < run_duration_seconds then
      match run_loop target start (cycle target s i).1 rest with
      | none => none
      | some (sf, evs) =>
        some (sf, Event.readCollisions ::
          ((cycle target s i).2.map Event.move ++ Event.readCollisions :: evs))
    else
      some (s, [])

/-- Oracle data for one whole mission: the `time.time()` at `start_time`,
the baseline read of line 74, the per-cycle inputs, and the final read of
line 111. -/
structure MissionInput where
  start : ℚ
  initial_read : ℤ
  cycles : List CycleInput
  final_read : ℤ
deriving DecidableEq, Repr

/-- The part of `run_autonomous_mission` after the target-heading lookup
succeeded: reads the baseline collision count (line 74), runs the loop
from heading 0, then issues the stop command and returns the final
collision read (lines 110-113). The first component is the trace of
simulator calls, the second the returned value (`none` when the oracle
ran out before the time budget elapsed). -/
def mission_after_lookup (goal_corner : String) (t : ℚ) (inp : MissionInput) :
    List Event × Option ℤ :=
  match run_loop t inp.start ⟨0, inp.initial_read⟩ inp.cycles with
  | none => ([Event.reset, Event.setGoal goal_corner, Event.readCollisions], none)
  | some (_, evs) =>
    (Event.reset :: Event.setGoal goal_corner :: Event.readCollisions ::
      (evs ++ [Event.move ⟨0, 0⟩, Event.readCollisions]), some inp.final_read)

/-- `run_autonomous_mission(goal_corner)` (lines 61-113): resets, places
the goal, then looks up the target heading; a KeyError on an unknown
corner aborts here, after the two requests were already issued. -/
def run_autonomous_mission (goal_corner : String) (inp : MissionInput) :
    List Event × Option ℤ :=
  match target_headings.lookup goal_corner with
  | none => ([Event.reset, Event.setGoal goal_corner], none)
  | some t => mission_after_lookup goal_corner t inp

/-- Outcome of the GET `/collisions` request as seen by
`get_collision_count`: a parsed JSON object, a body whose parsing raised,
or a failed request. -/
inductive HttpResult where
  | success (body : List (String × ℤ))
  | malformed
  | netError
deriving DecidableEq, Repr

/-- `get_collision_count` (lines 42-49): on a parsed body it returns
`response.json().get('count', 0)`; any raised exception yields `-1`. -/
def get_collision_count : HttpResult → ℤ
  | .success body => (body.lookup "count").getD 0
  | .malformed => -1
  | .netError => -1

/-! ### Arithmetic facts about `pymod` -/

lemma pymod_eq_mul_fract (x m : ℚ) (hm : m ≠ 0) :
    pymod x m = m * Int.fract (x / m) := by
  unfold pymod Int.fract
  field_simp

lemma pymod_nonneg (x m : ℚ) (hm : 0 < m) : 0 ≤ pymod x m := by
  rw [pymod_eq_mul_fract x m hm.ne']
  exact mul_nonneg hm.le (Int.fract_nonneg _)

lemma pymod_lt (x m : ℚ) (hm : 0 < m) : pymod x m < m := by
  rw [pymod_eq_mul_fract x m hm.ne']
  calc m * Int.fract (x / m) < m * 1 :=
        (mul_lt_mul_left hm).mpr (Int.fract_lt_one _)
    _ = m := mul_one m

lemma pymod_eq_self (x m : ℚ) (h0 : 0 ≤ x) (h1 : x < m) : pymod x m = x := by
  have hm : 0 < m := lt_of_le_of_lt h0 h1
  have hfl : ⌊x / m⌋ = 0 := by
    rw [Int.floor_eq_zero_iff]
    exact ⟨div_nonneg h0 hm.le, (div_lt_one hm).mpr h1⟩
  unfold pymod
  rw [hfl]
  simp

lemma pymod_add_int_mul (x m : ℚ) (k : ℤ) :
    pymod (x + m * k) m = pymod x m := by
  by_cases hm : m = 0
  · simp [pymod, hm]
  · have hdiv : (x + m * k) / m = x / m + k := by
      field_simp
      ring
    unfold pymod
    rw [hdiv, Int.floor_add_int]
    push_cast
    ring

/-! ### Facts about the heading error and the seek step -/

lemma heading_error_lb (t h : ℚ) : -180 ≤ heading_error t h := by
  have := pymod_nonneg (t - h + 180) 360 (by norm_num)
  unfold heading_error
  linarith

lemma heading_error_ub (t h : ℚ) : heading_error t h < 180 := by
  have := pymod_lt (t - h + 180) 360 (by norm_num)
  unfold heading_error
  linarith

/-- The heading error only depends on the heading modulo 360. -/
lemma heading_error_shift (t h c : ℚ) :
    heading_error t (h + c) = pymod (heading_error t h - c + 180) 360 - 180 := by
  unfold heading_error
  have key : t - (h + c) + 180
      = (pymod (t - h + 180) 360 - 180 - c + 180) + 360 * ⌊(t - h + 180) / 360⌋ := by
    unfold pymod
    ring
  rw [key, pymod_add_int_mul]

lemma heading_error_pymod (t x : ℚ) :
    heading_error t (pymod x 360) = heading_error t x := by
  unfold heading_error
  have key : t - pymod x 360 + 180 = (t - x + 180) + 360 * ⌊x / 360⌋ := by
    unfold pymod
    ring
  rw [key, pymod_add_int_mul]

lemma abs_clip_le (x lo hi : ℚ) (hlo : lo ≤ 0) (hhi : 0 ≤ hi) :
    |clip x lo hi| ≤ |x| := by
  unfold clip
  rw [abs_le]
  refine ⟨le_min (le_max_of_le_left (neg_abs_le x)) ?_, ?_⟩
  · linarith [abs_nonneg x]
  · exact le_trans (min_le_left _ _)
      (max_le (le_abs_self x) (by linarith [abs_nonneg x]))

/-- One seek cycle reduces the absolute heading error by exactly
`min |error| TURN_SPEED`. -/
lemma seek_error_step (t h : ℚ) :
    |heading_error t (seek_step t h)| =
      |heading_error t h| - min |heading_error t h| TURN_SPEED := by
  have hlb := heading_error_lb t h
  have hub := heading_error_ub t h
  have hstep : heading_error t (seek_step t h)
      = pymod (heading_error t h - seek_turn t h + 180) 360 - 180 := by
    unfold seek_step
    rw [heading_error_pymod, heading_error_shift]
  rw [hstep]
  unfold seek_turn clip TURN_SPEED
  set e := heading_error t h with he
  rcases lt_or_le e (-25) with h1 | h1
  · have hc : min (max e (-25)) 25 = -25 := by
      rw [max_eq_right h1.le, min_eq_left (by norm_num)]
    have hp : pymod (e - -25 + 180) 360 = e - -25 + 180 :=
      pymod_eq_self _ _ (by linarith) (by linarith)
    rw [hc, hp, abs_of_neg (by linarith : e - -25 + 180 - 180 < 0),
      abs_of_neg (by linarith : e < 0), min_eq_right (by linarith : (25:ℚ) ≤ -e)]
    ring
  · rcases le_or_lt e 25 with h2 | h2
    · have hc : min (max e (-25)) 25 = e := by
        rw [max_eq_left (by linarith), min_eq_left h2]
      have h180 : e - e + 180 = (180 : ℚ) := by ring
      rw [hc, h180, pymod_eq_self 180 360 (by norm_num) (by norm_num),
        min_eq_left (abs_le.mpr ⟨by linarith, h2⟩)]
      simp
    · have hc : min (max e (-25)) 25 = 25 := by
        rw [max_eq_left (by linarith), min_eq_right h2.le]
      have hp : pymod (e - 25 + 180) 360 = e - 25 + 180 :=
        pymod_eq_self _ _ (by linarith) (by linarith)
      rw [hc, hp, abs_of_pos (by linarith : (0:ℚ) < e - 25 + 180 - 180),
        abs_of_pos (by linarith : (0:ℚ) < e), min_eq_right (by linarith : (25:ℚ) ≤ e)]
      ring

/-- C4: as stated by the spec, the seek error is claimed to lie in the
half-open interval (-180, 180]; the code's error lands exactly on -180
when target and heading estimate are diametrically opposed, e.g. target
45 (corner NE) and heading estimate 225, so the claimed interval is
wrong at its left endpoint. -/
theorem C4_counterexample :
    heading_error 45 225 = -180
    ∧ ¬ (-180 < heading_error 45 225 ∧ heading_error 45 225 ≤ 180) := by
  have hval : heading_error 45 225 = -180 := by
    norm_num [heading_error, pymod]
  refine ⟨hval, ?_⟩
  rw [hval]
  norm_num

/-- C4 (amended): for every target heading and every heading estimate,
the signed angular error `((target - heading + 180) mod 360) - 180` of
the seek sequence lies in [-180, 180) (not (-180, 180]), and clamping it
to [-TURN_SPEED, TURN_SPEED] never increases its absolute value. -/
theorem C4_heading_error_range_and_clip (t h : ℚ) :
    (-180 ≤ heading_error t h ∧ heading_error t h < 180)
    ∧ |clip (heading_error t h) (-TURN_SPEED) TURN_SPEED| ≤ |heading_error t h| :=
  ⟨⟨heading_error_lb t h, heading_error_ub t h⟩,
    abs_clip_le _ _ _ (by norm_num [TURN_SPEED]) (by norm_num [TURN_SPEED])⟩

/-! ### Facts about one loop iteration -/

lemma cycle_escape_of_lt (t : ℚ) (s : State) (i : CycleInput)
    (h : s.lastCount < i.read1) :
    cycle t s i
      = (⟨pymod (s.heading + uniform 120 180 i.u) 360, i.read2⟩, escape_cmds i.u) := by
  unfold cycle
  rw [if_pos h]

lemma cycle_seek_of_not_lt (t : ℚ) (s : State) (i : CycleInput)
    (h : ¬ s.lastCount < i.read1) :
    cycle t s i
      = (⟨seek_step t s.heading, i.read2⟩, [⟨seek_turn t s.heading, FORWARD_SPEED⟩]) := by
  unfold cycle
  rw [if_neg h]

/-- Both branches end by storing the refresh read in
`last_collision_count` (line 107). -/
lemma cycle_lastCount (t : ℚ) (s : State) (i : CycleInput) :
    (cycle t s i).1.lastCount = i.read2 := by
  unfold cycle
  split <;> rfl

/-- C1: whenever the freshly read collision count strictly exceeds the
stored baseline, the cycle runs the escape sequence and not the seek
sequence: exactly three commands in order, a reverse-only command with
the fixed negative backup, a turn-only command whose magnitude lies in
[120, 180) for any random draw in [0, 1), and a forward-only command at
the standard forward speed, with the heading estimate increased by the
random turn modulo 360. -/
theorem C1_escape_on_collision_increase (target : ℚ) (s : State) (i : CycleInput)
    (hgt : s.lastCount < i.read1) (hu0 : 0 ≤ i.u) (hu1 : i.u < 1) :
    (cycle target s i).2
      = [⟨0, AVOIDANCE_BACKUP⟩, ⟨uniform 120 180 i.u, 0⟩, ⟨0, FORWARD_SPEED⟩]
    ∧ (120 ≤ uniform 120 180 i.u ∧ uniform 120 180 i.u < 180)
    ∧ (cycle target s i).1.heading = pymod (s.heading + uniform 120 180 i.u) 360 := by
  rw [cycle_escape_of_lt target s i hgt]
  refine ⟨rfl, ⟨?_, ?_⟩, rfl⟩
  · unfold uniform
    nlinarith
  · unfold uniform
    nlinarith

theorem C1_witness :
    (cycle 45 ⟨0, 2⟩ ⟨0, 3, 0, 3⟩).2
      = [⟨0, AVOIDANCE_BACKUP⟩, ⟨uniform 120 180 0, 0⟩, ⟨0, FORWARD_SPEED⟩]
    ∧ (120 ≤ uniform 120 180 (0:ℚ) ∧ uniform 120 180 (0:ℚ) < 180)
    ∧ (cycle 45 ⟨0, 2⟩ ⟨0, 3, 0, 3⟩).1.heading = pymod (0 + uniform 120 180 0) 360 :=
  C1_escape_on_collision_increase 45 ⟨0, 2⟩ ⟨0, 3, 0, 3⟩ (by norm_num) le_rfl (by norm_num)

/-- C2: the claim that a sentinel read never leads to escape fails on the
code. Concrete run: baseline 0 is valid; in the first cycle both reads
fail (-1), the controller seeks (so far as claimed) but stores the
sentinel as the new baseline; in the second cycle a successful read
returns 0 (the count never changed) and the controller nevertheless runs
the escape sequence, because 0 > -1. -/
theorem C2_sentinel_stored_baseline_triggers_escape :
    (cycle 45 ⟨0, 0⟩ ⟨0, -1, 0, -1⟩).2 = [⟨seek_turn 45 0, FORWARD_SPEED⟩]
    ∧ (cycle 45 ⟨0, 0⟩ ⟨0, -1, 0, -1⟩).1.lastCount = -1
    ∧ (cycle 45 (cycle 45 ⟨0, 0⟩ ⟨0, -1, 0, -1⟩).1 ⟨1, 0, 0, 0⟩).2 = escape_cmds 0 := by
  have h1 : cycle 45 (⟨0, 0⟩ : State) ⟨0, -1, 0, -1⟩
      = (⟨seek_step 45 0, -1⟩, [⟨seek_turn 45 0, FORWARD_SPEED⟩]) :=
    cycle_seek_of_not_lt 45 ⟨0, 0⟩ ⟨0, -1, 0, -1⟩ (by norm_num)
  refine ⟨by rw [h1], by rw [h1], ?_⟩
  rw [h1, cycle_escape_of_lt 45 ⟨seek_step 45 0, -1⟩ ⟨1, 0, 0, 0⟩ (by norm_num)]

/-- C3: the spec claims the sentinel -1 on any failure including a
missing count field; the code's lookup carries the default 0, so a
well-formed response without the field yields 0, not -1. -/
theorem C3_counterexample :
    get_collision_count (.success []) = 0
    ∧ get_collision_count (.success []) ≠ -1 := by
  exact ⟨rfl, by decide⟩

/-- C3 (amended): `get_collision_count` returns the count field on
success and the sentinel -1 on a network error or a malformed response,
but returns the default 0 (not -1) when the parsed body is missing the
count field. -/
theorem C3_collision_count_results (body : List (String × ℤ)) (c : ℤ) :
    (body.lookup "count" = some c → get_collision_count (.success body) = c)
    ∧ get_collision_count .malformed = -1
    ∧ get_collision_count .netError = -1
    ∧ (body.lookup "count" = none → get_collision_count (.success body) = 0) := by
  refine ⟨fun h => ?_, rfl, rfl, fun h => ?_⟩
  · simp only [get_collision_count]
    rw [h]
    rfl
  · simp only [get_collision_count]
    rw [h]
    rfl

theorem C3_witness :
    get_collision_count (.success [("count", 7)]) = 7
    ∧ get_collision_count (.success []) = 0 :=
  ⟨(C3_collision_count_results [("count", 7)] 7).1 rfl,
   (C3_collision_count_results [] 7).2.2.2 rfl⟩

/-- C7: the claim that an invalid corner label is rejected before any
simulator call fails on the code: `reset_simulation()` and `set_goal()`
run before the `target_headings[goal_corner]` lookup raises, so the
trace of the aborted mission already contains both requests. -/
theorem C7_counterexample :
    (run_autonomous_mission "XX" ⟨0, 0, [], 0⟩).1 = [Event.reset, Event.setGoal "XX"]
    ∧ Event.reset ∈ (run_autonomous_mission "XX" ⟨0, 0, [], 0⟩).1 := by
  have h : run_autonomous_mission "XX" ⟨0, 0, [], 0⟩
      = ([Event.reset, Event.setGoal "XX"], none) := rfl
  exact ⟨by rw [h], by rw [h]; simp⟩

/-- C7 (amended): an invalid goal-corner label aborts the mission at the
target-heading lookup, before any motion command, collision read, or the
control loop, but after the reset and goal-placement requests are
issued. -/
theorem C7_invalid_corner_aborts_after_setup (corner : String) (inp : MissionInput)
    (hbad : target_headings.lookup corner = none) :
    run_autonomous_mission corner inp = ([Event.reset, Event.setGoal corner], none) := by
  unfold run_autonomous_mission
  rw [hbad]

theorem C7_witness :
    run_autonomous_mission "XX" ⟨0, 0, [], 0⟩ = ([Event.reset, Event.setGoal "XX"], none) :=
  C7_invalid_corner_aborts_after_setup "XX" ⟨0, 0, [], 0⟩ rfl

/-- C8: the refresh read is stored unconditionally as the next baseline,
so a sentinel (-1) refresh read followed by any successful non-negative
read makes the next cycle run the escape sequence even though no
collision occurred. -/
theorem C8_sentinel_baseline_spurious_escape (target : ℚ) (s : State)
    (i j : CycleInput) (hs : i.read2 = -1) (hr : 0 ≤ j.read1) :
    (cycle target s i).1.lastCount = -1
    ∧ (cycle target (cycle target s i).1 j).2 = escape_cmds j.u := by
  have hstore : (cycle target s i).1.lastCount = -1 := by
    rw [cycle_lastCount, hs]
  refine ⟨hstore, ?_⟩
  rw [cycle_escape_of_lt target (cycle target s i).1 j (by omega)]

theorem C8_witness :
    (cycle 45 ⟨0, 0⟩ ⟨0, 0, 0, -1⟩).1.lastCount = -1
    ∧ (cycle 45 (cycle 45 ⟨0, 0⟩ ⟨0, 0, 0, -1⟩).1 ⟨1, 0, 0, 0⟩).2 = escape_cmds (0:ℚ) :=
  C8_sentinel_baseline_spurious_escape 45 ⟨0, 0⟩ ⟨0, 0, 0, -1⟩ ⟨1, 0, 0, 0⟩ rfl le_rfl

/-! ### Facts about the control loop -/

lemma seek_step_mem (t h : ℚ) : 0 ≤ seek_step t h ∧ seek_step t h < 360 :=
  ⟨pymod_nonneg _ _ (by norm_num), pymod_lt _ _ (by norm_num)⟩

lemma cycle_heading_mem (t : ℚ) (s : State) (i : CycleInput) :
    0 ≤ (cycle t s i).1.heading ∧ (cycle t s i).1.heading < 360 := by
  by_cases h : s.lastCount < i.read1
  · rw [cycle_escape_of_lt t s i h]
    exact ⟨pymod_nonneg _ _ (by norm_num), pymod_lt _ _ (by norm_num)⟩
  · rw [cycle_seek_of_not_lt t s i h]
    exact seek_step_mem t s.heading

lemma run_loop_heading_mem (t start : ℚ) :
    ∀ (inputs : List CycleInput) (s : State), 0 ≤ s.heading → s.heading < 360 →
      ∀ sf evs, run_loop t start s inputs = some (sf, evs) →
        0 ≤ sf.heading ∧ sf.heading < 360 := by
  intro inputs
  induction inputs with
  | nil =>
    intro s h0 h1 sf evs hrun
    simp [run_loop] at hrun
  | cons i rest ih =>
    intro s h0 h1 sf evs hrun
    simp only [run_loop] at hrun
    by_cases hg : i.time - start < run_duration_seconds
    · rw [if_pos hg] at hrun
      cases hrec : run_loop t start (cycle t s i).1 rest with
      | none =>
        rw [hrec] at hrun
        simp at hrun
      | some p =>
        obtain ⟨sf', evs'⟩ := p
        rw [hrec] at hrun
        simp only [Option.some.injEq, Prod.mk.injEq] at hrun
        obtain ⟨hsf, _⟩ := hrun
        have hmem := cycle_heading_mem t s i
        have := ih (cycle t s i).1 hmem.1 hmem.2 sf' evs' hrec
        rwa [hsf] at this
    · rw [if_neg hg] at hrun
      simp only [Option.some.injEq, Prod.mk.injEq] at hrun
      obtain ⟨hsf, _⟩ := hrun
      rw [← hsf]
      exact ⟨h0, h1⟩

/-- C5: the mission initializes the heading estimate to 0 (line 70) and
every update is additive modulo 360, so after any prefix of the loop
(any sequence of seek corrections and random escape turns) the stored
heading estimate lies in [0, 360). -/
theorem C5_heading_estimate_in_range (t start : ℚ) (inputs : List CycleInput)
    (s sf : State) (evs : List Event)
    (h0 : s.heading = 0)
    (hrun : run_loop t start s inputs = some (sf, evs)) :
    0 ≤ sf.heading ∧ sf.heading < 360 :=
  run_loop_heading_mem t start inputs s (by simp [h0]) (by simp [h0]) sf evs hrun

theorem C5_witness :
    0 ≤ ((⟨0, 0⟩ : State)).heading ∧ ((⟨0, 0⟩ : State)).heading < 360 :=
  C5_heading_estimate_in_range 45 0 [⟨90, 0, 0, 0⟩] ⟨0, 0⟩ ⟨0, 0⟩ [] rfl
    (by simp only [run_loop]
        rw [if_neg (by norm_num [run_duration_seconds])])

lemma run_loop_total (t start : ℚ) :
    ∀ (inputs : List CycleInput) (s : State),
      (∃ i ∈ inputs, ¬ i.time - start < run_duration_seconds) →
      ∃ r, run_loop t start s inputs = some r := by
  intro inputs
  induction inputs with
  | nil =>
    intro s h
    simp at h
  | cons i rest ih =>
    intro s hex
    by_cases hg : i.time - start < run_duration_seconds
    · have hex' : ∃ j ∈ rest, ¬ j.time - start < run_duration_seconds := by
        rcases hex with ⟨j, hj, hjp⟩
        rcases List.mem_cons.mp hj with rfl | hmem
        · exact absurd hg hjp
        · exact ⟨j, hmem, hjp⟩
      obtain ⟨⟨sf, evs⟩, hr⟩ := ih (cycle t s i).1 hex'
      refine ⟨⟨sf, Event.readCollisions ::
        ((cycle t s i).2.map Event.move ++ Event.readCollisions :: evs)⟩, ?_⟩
      simp only [run_loop]
      rw [if_pos hg, hr]
    · exact ⟨⟨s, []⟩, by simp only [run_loop]; rw [if_neg hg]⟩

/-- C6: once a loop-guard sample of wall-clock time reaches the run
duration, the loop terminates regardless of the mode at that instant,
the mission then issues exactly one zero-turn zero-distance stop command
and finally reads and returns the final collision count as its result. -/
theorem C6_time_budget_stop_and_result (corner : String) (t : ℚ) (inp : MissionInput)
    (hc : target_headings.lookup corner = some t)
    (hstop : ∃ i ∈ inp.cycles, ¬ i.time - inp.start < run_duration_seconds) :
    ∃ sf evs, run_loop t inp.start ⟨0, inp.initial_read⟩ inp.cycles = some (sf, evs)
    ∧ run_autonomous_mission corner inp =
        (Event.reset :: Event.setGoal corner :: Event.readCollisions ::
          (evs ++ [Event.move ⟨0, 0⟩, Event.readCollisions]), some inp.final_read) := by
  obtain ⟨⟨sf, evs⟩, hr⟩ := run_loop_total t inp.start inp.cycles ⟨0, inp.initial_read⟩ hstop
  refine ⟨sf, evs, hr, ?_⟩
  unfold run_autonomous_mission
  rw [hc]
  show mission_after_lookup corner t inp = _
  unfold mission_after_lookup
  rw [hr]

theorem C6_witness :
    run_autonomous_mission "NE" ⟨0, 0, [⟨90, 0, 0, 0⟩], 3⟩ =
      (Event.reset :: Event.setGoal "NE" :: Event.readCollisions ::
        (([] : List Event) ++ [Event.move ⟨0, 0⟩, Event.readCollisions]), some 3) := by
  obtain ⟨sf, evs, hr, hmission⟩ :=
    C6_time_budget_stop_and_result "NE" 45 ⟨0, 0, [⟨90, 0, 0, 0⟩], 3⟩ rfl
      ⟨⟨90, 0, 0, 0⟩, by simp, by norm_num [run_duration_seconds]⟩
  have hconc : run_loop 45 0 ⟨0, 0⟩ [⟨90, 0, 0, 0⟩] = some (⟨0, 0⟩, []) := by
    simp only [run_loop]
    rw [if_neg (by norm_num [run_duration_seconds])]
  rw [hconc] at hr
  obtain ⟨-, hevs⟩ := Prod.mk.injEq .. ▸ Option.some.inj hr
  rw [← hevs] at hmission
  exact hmission

/-- C9: the MissionResult is exactly the value of the single final read
performed after loop exit: whenever the mission completes, the result is
the final read, whatever the baseline and per-cycle reads were; in
particular a failed final read yields -1 even if every earlier read
succeeded. -/
theorem C9_result_is_single_final_read (corner : String) (t : ℚ) (inp : MissionInput)
    (hc : target_headings.lookup corner = some t)
    (hstop : ∃ i ∈ inp.cycles, ¬ i.time - inp.start < run_duration_seconds) :
    (run_autonomous_mission corner inp).2 = some inp.final_read := by
  obtain ⟨⟨sf, evs⟩, hr⟩ := run_loop_total t inp.start inp.cycles ⟨0, inp.initial_read⟩ hstop
  unfold run_autonomous_mission
  rw [hc]
  show (mission_after_lookup corner t inp).2 = some inp.final_read
  unfold mission_after_lookup
  rw [hr]

theorem C9_witness :
    (run_autonomous_mission "NE" ⟨0, 5, [⟨90, 2, 0, 2⟩], -1⟩).2 = some (-1) :=
  C9_result_is_single_final_read "NE" 45 ⟨0, 5, [⟨90, 2, 0, 2⟩], -1⟩ rfl
    ⟨⟨90, 2, 0, 2⟩, by simp, by norm_num [run_duration_seconds]⟩

/-! ### Convergence of the seek sequence -/

lemma heading_error_self (t : ℚ) : heading_error t t = 0 := by
  unfold heading_error
  have h : t - t + 180 = (180 : ℚ) := by ring
  rw [h, pymod_eq_self 180 360 (by norm_num) (by norm_num)]
  norm_num

lemma seek_turn_self (t : ℚ) : seek_turn t t = 0 := by
  unfold seek_turn clip TURN_SPEED
  rw [heading_error_self]
  norm_num

lemma seek_iterate_mem (t h : ℚ) (hh0 : 0 ≤ h) (hh1 : h < 360) (n : ℕ) :
    0 ≤ (seek_step t)^[n] h ∧ (seek_step t)^[n] h < 360 := by
  cases n with
  | zero => exact ⟨hh0, hh1⟩
  | succ n =>
    rw [Function.iterate_succ_apply']
    exact seek_step_mem t _

/-- After `n` seek cycles the absolute heading error is
`max (initial error - TURN_SPEED * n) 0`. -/
lemma seek_iter_error (t h : ℚ) (n : ℕ) :
    |heading_error t ((seek_step t)^[n] h)|
      = max (|heading_error t h| - TURN_SPEED * n) 0 := by
  induction n with
  | zero =>
    simp [max_eq_left (abs_nonneg (heading_error t h))]
  | succ n ih =>
    rw [Function.iterate_succ_apply', seek_error_step, ih]
    have hT : (0 : ℚ) ≤ TURN_SPEED := by norm_num [TURN_SPEED]
    push_cast
    rcases le_total (|heading_error t h| - TURN_SPEED * n) 0 with hx | hx
    · rw [max_eq_right hx, max_eq_right (by linarith), min_eq_left (by linarith)]
      ring
    · rw [max_eq_left hx]
      rcases le_total (|heading_error t h| - TURN_SPEED * n) TURN_SPEED with hy | hy
      · rw [min_eq_left hy, max_eq_right (by linarith)]
        ring
      · rw [min_eq_right hy, max_eq_left (by linarith)]
        ring

lemma heading_eq_of_error_zero (t h : ℚ) (ht0 : 0 ≤ t) (ht1 : t < 360)
    (hh0 : 0 ≤ h) (hh1 : h < 360) (he : heading_error t h = 0) : h = t := by
  have hp : pymod (t - h + 180) 360 = 180 := by
    unfold heading_error at he
    linarith
  set k := ⌊(t - h + 180) / 360⌋ with hk
  have h1 : t - h + 180 - 360 * (k : ℚ) = 180 := by
    unfold pymod at hp
    rw [← hk] at hp
    linarith
  have h2 : t - h = 360 * (k : ℚ) := by linarith
  have hb1 : (-1 : ℚ) < (k : ℚ) := by nlinarith
  have hb2 : (k : ℚ) < 1 := by nlinarith
  have i1 : (-1 : ℤ) < k := by exact_mod_cast hb1
  have i2 : k < 1 := by exact_mod_cast hb2
  have hk0 : k = 0 := by omega
  rw [hk0] at h2
  push_cast at h2
  linarith

/-- C10: each seek cycle shrinks the absolute angular error by exactly
`min |error| TURN_SPEED` (hence the error magnitude is non-increasing),
and once the number of uninterrupted seek cycles reaches the ceiling of
`initial error / TURN_SPEED` the heading estimate equals the target
heading and every subsequent seek command has turn 0. -/
theorem C10_seek_convergence (t h : ℚ) (ht0 : 0 ≤ t) (ht1 : t < 360)
    (hh0 : 0 ≤ h) (hh1 : h < 360) :
    (∀ g : ℚ, |heading_error t (seek_step t g)|
        = |heading_error t g| - min |heading_error t g| TURN_SPEED)
    ∧ ∀ n : ℕ, ⌈|heading_error t h| / TURN_SPEED⌉ ≤ (n : ℤ) →
        (seek_step t)^[n] h = t ∧ seek_turn t ((seek_step t)^[n] h) = 0 := by
  refine ⟨fun g => seek_error_step t g, fun n hn => ?_⟩
  have hT : (0 : ℚ) < TURN_SPEED := by norm_num [TURN_SPEED]
  have hceil : |heading_error t h| / TURN_SPEED ≤ (n : ℚ) := by
    calc |heading_error t h| / TURN_SPEED
        ≤ (⌈|heading_error t h| / TURN_SPEED⌉ : ℚ) := Int.le_ceil _
      _ ≤ (n : ℚ) := by exact_mod_cast hn
  have ha : |heading_error t h| ≤ TURN_SPEED * n := by
    rw [mul_comm]
    exact (div_le_iff₀ hT).mp hceil
  have hzero : heading_error t ((seek_step t)^[n] h) = 0 := by
    have habs := seek_iter_error t h n
    rw [max_eq_right (by linarith)] at habs
    exact abs_eq_zero.mp habs
  obtain ⟨hm0, hm1⟩ := seek_iterate_mem t h hh0 hh1 n
  have heq : (seek_step t)^[n] h = t :=
    heading_eq_of_error_zero t _ ht0 ht1 hm0 hm1 hzero
  rw [heq]
  exact ⟨rfl, seek_turn_self t⟩

theorem C10_witness :
    (seek_step 45)^[2] 0 = 45 ∧ seek_turn 45 ((seek_step 45)^[2] 0) = 0 :=
  (C10_seek_convergence 45 0 (by norm_num) (by norm_num) le_rfl (by norm_num)).2 2
    (by norm_num [heading_error, pymod, TURN_SPEED]
        rw [Int.ceil_le]
        norm_num)

end RobotController
